import Mathlib

/-!
Verification development for the CDP connection context of `cdp-cli`
(`src/context.ts` and its command-layer callers). The TypeScript code is
shallowly embedded: JavaScript `Map`s become insertion-ordered association
lists, promises become explicit settlement states, and the event handlers
registered on the WebSocket become step functions folded over event lists.
-/

namespace Cdp

/-! ## JavaScript primitives -/

/-- JavaScript `x || d` on a possibly-undefined number: `undefined` and `0`
are falsy, every other number is returned unchanged. -/
def jsOrNat (x : Option Nat) (d : Nat) : Nat :=
  match x with
  | some n => if n = 0 then d else n
  | none => d

/-- JavaScript `s || d` on a possibly-undefined string: `undefined` and the
empty string are falsy. -/
def jsOrString (s : Option String) (d : String) : String :=
  match s with
  | some t => if t = "" then d else t
  | none => d

section JsMap

variable {α β : Type} [DecidableEq α]

/-- `Map.get`: first binding of the key in the insertion-ordered list. -/
def mapLookup : List (α × β) → α → Option β
  | [], _ => none
  | (k, v) :: rest, key => if k = key then some v else mapLookup rest key

/-- `Map.has`. -/
def mapContains (m : List (α × β)) (k : α) : Bool :=
  (mapLookup m k).isSome

/-- Overwriting one binding of an association list in place. -/
def setEntry (k : α) (v : β) (p : α × β) : α × β :=
  if p.1 = k then (k, v) else p

/-- `Map.set`: overwrite in place (keeping the original position) when the
key is present, append otherwise. -/
def jsMapSet (m : List (α × β)) (k : α) (v : β) : List (α × β) :=
  if mapContains m k then
    m.map (setEntry k v)
  else
    m ++ [(k, v)]

/-- `Array.from(map.values())`. -/
def jsMapValues (m : List (α × β)) : List β :=
  m.map Prod.snd

end JsMap

/-! ## Pages: `CDPContext.getPages` and `CDPContext.findPage` -/

/-- The directory entries returned by the `/json` endpoint
(`Page` in `src/context.ts`). -/
structure Page where
  id : String
  title : String
  url : String
  type : String
  webSocketDebuggerUrl : String
deriving DecidableEq

/-- JavaScript `String.prototype.includes`: `sub` occurs contiguously in
`hay`. -/
def strIncludes (hay sub : String) : Bool :=
  (List.range (hay.data.length + 1)).any (fun i => sub.data.isPrefixOf (hay.data.drop i))

/-- `getPages`: fetch the directory and keep only entries of type `page`. -/
def getPages (directory : List Page) : List Page :=
  directory.filter (fun p => p.type == "page")

/-- The predicate of `findPage`: exact id match or title substring match. -/
def pageMatches (idOrTitle : String) (p : Page) : Bool :=
  p.id == idOrTitle || strIncludes p.title idOrTitle

/-- `findPage`: first matching page, or a thrown `Page not found` error.
The WebSocket connection (`connect`) is only attempted by callers after
`findPage` returns successfully. -/
def findPage (directory : List Page) (idOrTitle : String) : Except String Page :=
  match (getPages directory).find? (pageMatches idOrTitle) with
  | some p => Except.ok p
  | none => Except.error ("Page not found: " ++ idOrTitle)

/-! ## Console aggregation: `CDPContext.setupConsoleCollection` -/

/-- A CDP `RemoteObject` console argument as used by the handler: only its
`value` (already a primitive, rendered by `String(...)`) and `description`
fields are inspected. -/
structure RemoteArg where
  value : Option String
  description : Option String
deriving DecidableEq

/-- `JSON.stringify` of an argument whose `value` and `description` are both
undefined: no enumerable fields remain, hence `\x7b\x7d`. -/
def jsonStringifyArg (_ : RemoteArg) : String := "\x7b\x7d"

/-- The per-argument formatting in the `Runtime.consoleAPICalled` handler. -/
def formatArg (arg : RemoteArg) : String :=
  match arg.value with
  | some v => v
  | none =>
    match arg.description with
    | some d => d
    | none => jsonStringifyArg arg

/-- `exceptionDetails` of a `Runtime.exceptionThrown` notification. -/
structure ExceptionDetails where
  text : String
  lineNumber : Option Nat
  url : Option String
deriving DecidableEq

/-- A parsed inbound message as seen by the console-collection handler:
either one of the two recognized notifications, or anything else (a command
response, an unknown method, a message with neither), which both `if`
blocks ignore. -/
inductive ConsoleNotification where
  | consoleAPICalled (type : String) (args : List RemoteArg) (timestamp : Option Nat)
  | exceptionThrown (timestamp : Option Nat) (exceptionDetails : ExceptionDetails)
  | otherMessage
deriving DecidableEq

/-- `ConsoleMessage` from `src/context.ts`. The generated string id
`msg_<Date.now()>_<random suffix>` is modelled by a `Nat` drawn from the
session clock; per the id scheme ids are unique across entries. -/
structure ConsoleMessage where
  id : Nat
  type : String
  timestamp : Nat
  text : String
  source : String
  line : Option Nat
  url : Option String
  args : Option (List RemoteArg)
deriving DecidableEq

/-- State of the console aggregator: the `consoleMessages` map of the
context plus the clock/randomness source used for ids and timestamp
fallbacks. -/
structure ConsoleState where
  now : Nat
  consoleMessages : List (Nat × ConsoleMessage)
deriving DecidableEq

/-- The entry the handler constructs for one notification (`none` when the
message matches neither `if`). -/
def consoleEntryOf (now : Nat) : ConsoleNotification → Option ConsoleMessage
  | ConsoleNotification.consoleAPICalled ty args timestamp =>
    some { id := now, type := ty, timestamp := jsOrNat timestamp now,
           text := String.intercalate " " (args.map formatArg),
           source := "console-api", line := none, url := none, args := some args }
  | ConsoleNotification.exceptionThrown timestamp details =>
    some { id := now, type := "error", timestamp := jsOrNat timestamp now,
           text := details.text, source := "exception",
           line := details.lineNumber, url := details.url, args := none }
  | ConsoleNotification.otherMessage => none

/-- One execution of the `message` handler installed by
`setupConsoleCollection`, on an already-parsed message. -/
def consoleStep (st : ConsoleState) (ev : ConsoleNotification) : ConsoleState :=
  match consoleEntryOf st.now ev with
  | some msg =>
    { now := st.now + 1, consoleMessages := jsMapSet st.consoleMessages msg.id msg }
  | none => { st with now := st.now + 1 }

/-- Handler executions over a whole inbound sequence. -/
def runConsole (st : ConsoleState) (evs : List ConsoleNotification) : ConsoleState :=
  evs.foldl consoleStep st

/-- `CDPContext.getConsoleMessages`: `Array.from(this.consoleMessages.values())`. -/
def getConsoleMessages (st : ConsoleState) : List ConsoleMessage :=
  jsMapValues st.consoleMessages

/-- A fresh context. -/
def initConsole : ConsoleState := { now := 0, consoleMessages := [] }

/-- The entries the handler derives from a notification sequence, in
arrival order (reference list for the order theorem). -/
def consoleEntriesFrom : Nat → List ConsoleNotification → List ConsoleMessage
  | _, [] => []
  | now, ev :: rest =>
    match consoleEntryOf now ev with
    | some msg => msg :: consoleEntriesFrom (now + 1) rest
    | none => consoleEntriesFrom (now + 1) rest

/-- A raw WebSocket frame before `JSON.parse`: either text that fails to
parse, or a frame that decodes to a message. -/
inductive RawPayload where
  | malformed
  | wellFormed (notification : ConsoleNotification)

/-- The dispatch loop over raw frames. The handler body starts with an
unguarded `JSON.parse(data.toString())` (src/context.ts line 152, no
try/catch anywhere in the file), so a frame that fails to parse throws a
`SyntaxError` out of the handler and the loop stops; the aggregation state
reached so far is the context state at that moment. -/
def consoleDispatchRun (st : ConsoleState) : List RawPayload → ConsoleState × Option String
  | [] => (st, none)
  | RawPayload.malformed :: _ => (st, some "SyntaxError: Unexpected token in JSON")
  | RawPayload.wellFormed ev :: rest => consoleDispatchRun (consoleStep st ev) rest

/-- The `--type` filter of `listConsole` (src/commands/debug.ts):
`messages.filter(m => m.type === options.type)`. -/
def listConsoleTypeFilter (messages : List ConsoleMessage) (ty : String) : List ConsoleMessage :=
  messages.filter (fun m => m.type == ty)

/-! ## Network aggregation: `CDPContext.setupNetworkCollection` -/

/-- HTTP headers (`Record<string, string>`). -/
abbrev Headers := List (String × String)

/-- `NetworkRequest` from `src/context.ts`. All fields are `Option` because
the handler assembles values in a `Map<string, Partial<NetworkRequest>>`;
the final `req as NetworkRequest` is a compile-time cast that changes no
runtime value. -/
structure NetworkRequest where
  id : Option String
  url : Option String
  method : Option String
  status : Option Nat
  type : Option String
  size : Option Nat
  timestamp : Option Nat
  requestHeaders : Option Headers
  responseHeaders : Option Headers
deriving DecidableEq

/-- `params.request` of `Network.requestWillBeSent`. -/
structure RequestInfo where
  url : String
  method : String
  headers : Headers
deriving DecidableEq

/-- `params.response` of `Network.responseReceived`. -/
structure ResponseInfo where
  url : Option String
  status : Nat
  headers : Headers
  encodedDataLength : Option Nat
deriving DecidableEq

/-- A parsed inbound message as seen by the network-collection handler:
one of the three recognized notifications, or anything else (ignored by all
three `if` blocks). -/
inductive NetworkEvent where
  | requestWillBeSent (requestId : String) (request : RequestInfo) (timestamp : Nat) (type : String)
  | responseReceived (requestId : String) (response : ResponseInfo)
  | loadingFinished (requestId : String) (encodedDataLength : Nat)
  | otherMessage
deriving DecidableEq

/-- State of the network aggregator. `requests` is the local assembly map
of `setupNetworkCollection` and doubles as the object heap: the values
stored in `this.networkRequests` are references to the very objects held in
`requests` (the handler mutates them in place), so `this.networkRequests`
is modelled by its insertion-ordered key list `networkRequests`, each key
aliasing the object in `requests`. `now` is the `Date.now()` clock. -/
structure NetworkState where
  now : Nat
  requests : List (String × NetworkRequest)
  networkRequests : List String
deriving DecidableEq

/-- A fresh context. -/
def initNetwork : NetworkState := { now := 0, requests := [], networkRequests := [] }

/-- One execution of the `message` handler installed by
`setupNetworkCollection`, on an already-parsed message. -/
def networkStep (st : NetworkState) (ev : NetworkEvent) : NetworkState :=
  match ev with
  | NetworkEvent.requestWillBeSent requestId request timestamp ty =>
    let updated : NetworkRequest :=
      match mapLookup st.requests requestId with
      | some existing =>
        { existing with
          url := some request.url, method := some request.method,
          timestamp := some (timestamp * 1000), type := some ty,
          requestHeaders := some request.headers }
      | none =>
        { id := some requestId, url := some request.url,
          method := some request.method, status := none, type := some ty,
          size := none, timestamp := some (timestamp * 1000),
          requestHeaders := some request.headers, responseHeaders := none }
    { st with now := st.now + 1, requests := jsMapSet st.requests requestId updated }
  | NetworkEvent.responseReceived requestId response =>
    let base : NetworkRequest :=
      match mapLookup st.requests requestId with
      | some req => req
      | none =>
        { id := some requestId, url := some ((response.url).getD ""),
          method := some "GET", status := none, type := none, size := none,
          timestamp := some st.now, requestHeaders := none, responseHeaders := none }
    let req : NetworkRequest :=
      { base with
        status := some response.status,
        responseHeaders := some response.headers,
        size := match response.encodedDataLength with
                | some n => some n
                | none => base.size }
    { st with now := st.now + 1,
              requests := jsMapSet st.requests requestId req,
              networkRequests :=
                if requestId ∈ st.networkRequests then st.networkRequests
                else st.networkRequests ++ [requestId] }
  | NetworkEvent.loadingFinished requestId encodedDataLength =>
    if requestId ∈ st.networkRequests then
      match mapLookup st.requests requestId with
      | some req =>
        { st with now := st.now + 1,
                  requests := jsMapSet st.requests requestId { req with size := some encodedDataLength } }
      | none => { st with now := st.now + 1 }
    else { st with now := st.now + 1 }
  | NetworkEvent.otherMessage => { st with now := st.now + 1 }

/-- Handler executions over a whole inbound sequence. -/
def runNetwork (st : NetworkState) (evs : List NetworkEvent) : NetworkState :=
  evs.foldl networkStep st

/-- `CDPContext.getNetworkRequests`:
`Array.from(this.networkRequests.values())`, reading each stored reference
through the heap. -/
def getNetworkRequests (st : NetworkState) : List NetworkRequest :=
  st.networkRequests.filterMap (mapLookup st.requests)

/-! ## Command correlation: `CDPContext.sendCommand` -/

/-- The settled value of a `sendCommand` promise. The `result` payload is
carried through opaquely as an `Option String` (`resolve(message.result)`
passes it through without interpretation). -/
inductive CallOutcome where
  | result (payload : Option String)
  | protocolError (message : String)
  | commandTimeout (method : String)
deriving DecidableEq

/-- An inbound identified message as inspected by the `messageHandler` of
`sendCommand`: its `id`, its `result` payload, and its `error` object
(outer `some` means an `error` field is present; the inner option is the
error object's optional `message` string). -/
structure CDPMessage where
  id : Option Nat
  result : Option String
  error : Option (Option String)
deriving DecidableEq

/-- What the handler settles the promise with for a matching message:
`reject(new Error(message.error.message || 'CDP command failed'))` when an
error object is present, otherwise `resolve(message.result)`. -/
def outcomeOfMessage (m : CDPMessage) : CallOutcome :=
  match m.error with
  | some errMessage => CallOutcome.protocolError (jsOrString errMessage "CDP command failed")
  | none => CallOutcome.result m.result

/-- One in-flight `sendCommand` call: its assigned id and method, whether
its `messageHandler` is still registered (`ws.on('message', ...)` /
`ws.off`), whether its 30-second timer is still pending
(`setTimeout` / `clearTimeout`), and the settlement of its promise. -/
structure PendingCall where
  id : Nat
  method : String
  listenerOn : Bool
  timerOn : Bool
  outcome : Option CallOutcome
deriving DecidableEq

/-- Settling the promise: a JavaScript promise settles at most once, the
first `resolve`/`reject` wins. -/
def settle (c : PendingCall) (o : CallOutcome) : PendingCall :=
  match c.outcome with
  | some _ => c
  | none => { c with outcome := some o }

/-- The events one call can observe: an inbound parsed message (seen by the
handler while registered), the firing of a 30-second command timer, and
closure of the WebSocket — for which neither `sendCommand` nor `connect`
(which registers only `open` and `error` handlers) installs any handler,
so closure reaches no code of the call. -/
inductive CallEvent where
  | message (m : CDPMessage)
  | timeoutFire (id : Nat)
  | channelClose
deriving DecidableEq

/-- The reaction of one call to one event, from the bodies of
`messageHandler` and of the timeout callback in `sendCommand`: a matching
message clears the timer, unregisters the handler and settles the promise;
the timer fires only while armed, unregisters the handler and rejects with
`Command timeout`; channel closure does nothing. -/
def stepCall (c : PendingCall) (ev : CallEvent) : PendingCall :=
  match ev with
  | CallEvent.message m =>
    if c.listenerOn = true ∧ m.id = some c.id then
      settle { c with listenerOn := false, timerOn := false } (outcomeOfMessage m)
    else c
  | CallEvent.timeoutFire i =>
    if c.timerOn = true ∧ i = c.id then
      settle { c with listenerOn := false, timerOn := false }
        (CallOutcome.commandTimeout c.method)
    else c
  | CallEvent.channelClose => c

/-- `CDPContext` state relevant to command correlation: the `messageId`
counter and the in-flight calls in creation order. -/
structure CDPContextState where
  messageId : Nat
  pending : List PendingCall
deriving DecidableEq

/-- A fresh context (`messageId` starts at 1). -/
def initContext : CDPContextState := { messageId := 1, pending := [] }

/-- `sendCommand`: allocate `id = this.messageId++`, register the message
handler, arm the timer, send `{id, method, params}`; returns the new
context state and the assigned id. -/
def sendCommand (st : CDPContextState) (method : String) : CDPContextState × Nat :=
  ({ messageId := st.messageId + 1,
     pending := st.pending ++ [{ id := st.messageId, method := method,
                                 listenerOn := true, timerOn := true, outcome := none }] },
   st.messageId)

/-- Issue a batch of commands in order (concurrently outstanding calls). -/
def issueCommands (st : CDPContextState) (methods : List String) : CDPContextState :=
  methods.foldl (fun s meth => (sendCommand s meth).1) st

/-- An event on the channel reaches every call's own registered handler
(each `sendCommand` adds a separate `ws.on('message')` listener); the
handlers are independent of one another. -/
def dispatchEvent (st : CDPContextState) (ev : CallEvent) : CDPContextState :=
  { st with pending := st.pending.map (fun c => stepCall c ev) }

/-- The calls a command batch creates, given the starting counter value. -/
def pendingOf : Nat → List String → List PendingCall
  | _, [] => []
  | n, meth :: rest =>
    { id := n, method := meth, listenerOn := true, timerOn := true, outcome := none }
      :: pendingOf (n + 1) rest

/-! ## Lemmas about the map model -/

theorem mapLookup_append {α β : Type} [DecidableEq α] (m₁ m₂ : List (α × β)) (k : α) :
    mapLookup (m₁ ++ m₂) k =
      match mapLookup m₁ k with
      | some v => some v
      | none => mapLookup m₂ k := by
  induction m₁ with
  | nil => simp [mapLookup]
  | cons p rest ih =>
    by_cases h : p.1 = k
    · simp [mapLookup, h]
    · simp [mapLookup, h, ih]

theorem mapLookup_append_self {α β : Type} [DecidableEq α] (m : List (α × β)) (k : α) (v : β)
    (h : mapLookup m k = none) :
    mapLookup (m ++ [(k, v)]) k = some v := by
  rw [mapLookup_append, h]
  simp [mapLookup]

theorem jsMapSet_of_absent {α β : Type} [DecidableEq α] (m : List (α × β)) (k : α) (v : β)
    (h : mapLookup m k = none) :
    jsMapSet m k v = m ++ [(k, v)] := by
  simp [jsMapSet, mapContains, h]

theorem setEntry_eq {α β : Type} [DecidableEq α] (k : α) (v : β) (a : α) (b : β)
    (h : a = k) : setEntry k v (a, b) = (k, v) := by
  simp [setEntry, h]

theorem setEntry_ne {α β : Type} [DecidableEq α] (k : α) (v : β) (a : α) (b : β)
    (h : ¬a = k) : setEntry k v (a, b) = (a, b) := by
  simp [setEntry, h]

theorem mapLookup_map_update_ne {α β : Type} [DecidableEq α]
    (m : List (α × β)) (k' k : α) (v : β) (hne : k' ≠ k) :
    mapLookup (m.map (setEntry k' v)) k = mapLookup m k := by
  induction m with
  | nil => simp [mapLookup]
  | cons p rest ih =>
    obtain ⟨a, b⟩ := p
    rw [List.map_cons]
    by_cases hp : a = k'
    · rw [setEntry_eq k' v a b hp]
      subst hp
      simp [mapLookup, hne, ih]
    · rw [setEntry_ne k' v a b hp]
      by_cases hk : a = k
      · simp [mapLookup, hk]
      · simp [mapLookup, hk, ih]

theorem mapLookup_map_update_self {α β : Type} [DecidableEq α]
    (m : List (α × β)) (k : α) (v : β) (h : mapContains m k = true) :
    mapLookup (m.map (setEntry k v)) k = some v := by
  induction m with
  | nil => simp [mapContains, mapLookup] at h
  | cons p rest ih =>
    obtain ⟨a, b⟩ := p
    rw [List.map_cons]
    by_cases hp : a = k
    · rw [setEntry_eq k v a b hp]
      simp [mapLookup]
    · rw [setEntry_ne k v a b hp]
      have h' : mapContains rest k = true := by
        simpa [mapContains, mapLookup, hp] using h
      simp [mapLookup, hp, ih h']

/-- The master lemma: looking a key up after a `Map.set`. -/
theorem mapLookup_jsMapSet {α β : Type} [DecidableEq α]
    (m : List (α × β)) (k' k : α) (v : β) :
    mapLookup (jsMapSet m k' v) k = if k' = k then some v else mapLookup m k := by
  by_cases hc : mapContains m k' = true
  · by_cases hk : k' = k
    · subst hk
      simp [jsMapSet, hc, mapLookup_map_update_self m k' v hc]
    · simp [jsMapSet, hc, hk, mapLookup_map_update_ne m k' k v hk]
  · have hnone : mapLookup m k' = none := by
      simp [mapContains] at hc
      exact Option.eq_none_iff_forall_not_mem.mpr (fun a ha => by simp [hc] at ha)
    by_cases hk : k' = k
    · subst hk
      simp [jsMapSet, mapContains, hnone, mapLookup_append_self m k' v hnone]
    · simp only [jsMapSet, mapContains, hnone, Option.isSome_none, Bool.false_eq_true,
        if_false, if_neg hk]
      rw [mapLookup_append]
      cases hm : mapLookup m k with
      | some w => simp
      | none => simp [mapLookup, hk]

theorem jsMapSet_length {α β : Type} [DecidableEq α] (m : List (α × β)) (k : α) (v : β) :
    (jsMapSet m k v).length = if mapContains m k then m.length else m.length + 1 := by
  by_cases h : mapContains m k = true
  · simp [jsMapSet, h]
  · simp [jsMapSet, h]

theorem jsMapValues_append {α β : Type} [DecidableEq α] (m : List (α × β)) (k : α) (v : β) :
    jsMapValues (m ++ [(k, v)]) = jsMapValues m ++ [v] := by
  simp [jsMapValues]

/-! ## Lemmas for `findPage` -/

theorem find?_eq_some_split {γ : Type} (l : List γ) (f : γ → Bool) (a : γ)
    (h : l.find? f = some a) :
    f a = true ∧ ∃ l₁ l₂, l = l₁ ++ a :: l₂ ∧ ∀ q ∈ l₁, f q = false := by
  induction l with
  | nil => simp [List.find?] at h
  | cons x rest ih =>
    by_cases hx : f x = true
    · rw [List.find?_cons_of_pos _ hx] at h
      cases h
      exact ⟨hx, [], rest, rfl, by simp⟩
    · have hx' : f x = false := by simpa using hx
      rw [List.find?_cons_of_neg _ (by simp [hx'])] at h
      obtain ⟨hfa, l₁, l₂, heq, hall⟩ := ih h
      exact ⟨hfa, x :: l₁, l₂, by rw [heq]; rfl,
        fun q hq => by
          rcases List.mem_cons.mp hq with h1 | h2
          · rw [h1]; exact hx'
          · exact hall q h2⟩

/-- Claim C10: page lookup considers only directory entries whose `type` is
`"page"`; among those it returns the first, in directory order, matching by
exact id or title substring; with several matches the earliest listed wins;
with none it fails (throws `Page not found`) without opening any channel. -/
theorem findPage_first_eligible_match (directory : List Page) (sel : String) :
    (∀ p, findPage directory sel = Except.ok p →
      p.type = "page" ∧ pageMatches sel p = true ∧
      ∃ l₁ l₂, getPages directory = l₁ ++ p :: l₂ ∧ ∀ q ∈ l₁, pageMatches sel q = false) ∧
    (findPage directory sel = Except.error ("Page not found: " ++ sel) ↔
      ∀ q ∈ getPages directory, pageMatches sel q = false) := by
  constructor
  · intro p hp
    unfold findPage at hp
    cases hfind : (getPages directory).find? (pageMatches sel) with
    | none => rw [hfind] at hp; cases hp
    | some q =>
      rw [hfind] at hp
      cases hp
      obtain ⟨hmatch, l₁, l₂, heq, hall⟩ := find?_eq_some_split _ _ _ hfind
      have hmem : p ∈ getPages directory := by
        rw [heq]; exact List.mem_append.mpr (Or.inr (List.mem_cons_self _ _))
      have htype : p.type == "page" := (List.mem_filter.mp hmem).2
      exact ⟨by simpa using htype, hmatch, l₁, l₂, heq, hall⟩
  · constructor
    · intro herr q hq
      unfold findPage at herr
      cases hfind : (getPages directory).find? (pageMatches sel) with
      | none =>
        have := List.find?_eq_none.mp hfind q hq
        simpa using this
      | some p => rw [hfind] at herr; cases herr
    · intro hall
      unfold findPage
      have : (getPages directory).find? (pageMatches sel) = none :=
        List.find?_eq_none.mpr (fun x hx => by simp [hall x hx])
      rw [this]

/-- Concrete instantiation of `findPage_first_eligible_match`: a directory
with a non-page target, a non-matching page and two matching pages; the
earliest matching page wins and is of type `page`. -/
theorem findPage_first_eligible_match_witness :
    let worker : Page := ⟨"w1", "My tab", "https://a", "service_worker", "ws://w"⟩
    let other : Page := ⟨"p0", "Docs", "https://d", "page", "ws://0"⟩
    let first : Page := ⟨"p1", "My tab", "https://b", "page", "ws://1"⟩
    let second : Page := ⟨"p2", "My tab 2", "https://c", "page", "ws://2"⟩
    findPage [worker, other, first, second] "My tab" = Except.ok first ∧
    first.type = "page" ∧ pageMatches "My tab" first = true := by
  refine ⟨by rfl, ?_, ?_⟩
  · exact ((findPage_first_eligible_match
      [⟨"w1", "My tab", "https://a", "service_worker", "ws://w"⟩,
       ⟨"p0", "Docs", "https://d", "page", "ws://0"⟩,
       ⟨"p1", "My tab", "https://b", "page", "ws://1"⟩,
       ⟨"p2", "My tab 2", "https://c", "page", "ws://2"⟩] "My tab").1
      ⟨"p1", "My tab", "https://b", "page", "ws://1"⟩ (by rfl)).1
  · exact ((findPage_first_eligible_match
      [⟨"w1", "My tab", "https://a", "service_worker", "ws://w"⟩,
       ⟨"p0", "Docs", "https://d", "page", "ws://0"⟩,
       ⟨"p1", "My tab", "https://b", "page", "ws://1"⟩,
       ⟨"p2", "My tab 2", "https://c", "page", "ws://2"⟩] "My tab").1
      ⟨"p1", "My tab", "https://b", "page", "ws://1"⟩ (by rfl)).2.1


/-! ## Console aggregation lemmas -/

theorem mapLookup_eq_none_of_keys_ne {α β : Type} [DecidableEq α]
    (m : List (α × β)) (k : α) (h : ∀ p ∈ m, p.1 ≠ k) :
    mapLookup m k = none := by
  induction m with
  | nil => rfl
  | cons p rest ih =>
    obtain ⟨a, b⟩ := p
    have ha : a ≠ k := h (a, b) (List.mem_cons_self _ _)
    simp only [mapLookup, if_neg ha]
    exact ih (fun q hq => h q (List.mem_cons_of_mem _ hq))

theorem consoleEntryOf_id (now : Nat) (ev : ConsoleNotification) (msg : ConsoleMessage)
    (h : consoleEntryOf now ev = some msg) : msg.id = now := by
  cases ev with
  | consoleAPICalled ty args timestamp => cases h; rfl
  | exceptionThrown timestamp details => cases h; rfl
  | otherMessage => cases h

theorem runConsole_getConsoleMessages (evs : List ConsoleNotification) (st : ConsoleState)
    (hkeys : ∀ p ∈ st.consoleMessages, p.1 < st.now) :
    getConsoleMessages (runConsole st evs)
      = getConsoleMessages st ++ consoleEntriesFrom st.now evs := by
  induction evs generalizing st with
  | nil => simp [runConsole, consoleEntriesFrom]
  | cons ev rest ih =>
    have hstep : runConsole st (ev :: rest) = runConsole (consoleStep st ev) rest := rfl
    cases he : consoleEntryOf st.now ev with
    | none =>
      have hs : consoleStep st ev = { st with now := st.now + 1 } := by
        simp [consoleStep, he]
      have hk' : ∀ p ∈ ({ st with now := st.now + 1 } : ConsoleState).consoleMessages,
          p.1 < ({ st with now := st.now + 1 } : ConsoleState).now := by
        intro p hp
        exact Nat.lt_succ_of_lt (hkeys p hp)
      rw [hstep, hs, ih _ hk']
      simp [getConsoleMessages, consoleEntriesFrom, he]
    | some msg =>
      have hnone : mapLookup st.consoleMessages msg.id = none := by
        apply mapLookup_eq_none_of_keys_ne
        intro p hp
        have := hkeys p hp
        rw [consoleEntryOf_id st.now ev msg he]
        exact Nat.ne_of_lt this
      have hs : consoleStep st ev =
          { now := st.now + 1,
            consoleMessages := st.consoleMessages ++ [(msg.id, msg)] } := by
        simp [consoleStep, he, jsMapSet_of_absent _ _ _ hnone]
      have hk' : ∀ p ∈ st.consoleMessages ++ [(msg.id, msg)], p.1 < st.now + 1 := by
        intro p hp
        rcases List.mem_append.mp hp with h1 | h2
        · exact Nat.lt_succ_of_lt (hkeys p h1)
        · have : p = (msg.id, msg) := List.mem_singleton.mp h2
          rw [this, consoleEntryOf_id st.now ev msg he]
          exact Nat.lt_succ_self _
      rw [hstep, hs, ih _ hk']
      simp [getConsoleMessages, jsMapValues, consoleEntriesFrom, he]

/-- Claim C9: console retrieval returns entries in arrival order for every
notification sequence (the retrieved list is exactly the arrival-ordered
list of derived entries), and the `--type` filter is a pure projection: it
keeps exactly the entries of the requested type, modifies none of them, and
preserves their relative order (it is a sublist). -/
theorem console_order_and_type_filter (evs : List ConsoleNotification) (ty : String) :
    getConsoleMessages (runConsole initConsole evs) = consoleEntriesFrom 0 evs ∧
    (∀ messages : List ConsoleMessage,
      List.Sublist (listConsoleTypeFilter messages ty) messages ∧
      (∀ m : ConsoleMessage, m ∈ listConsoleTypeFilter messages ty ↔ m ∈ messages ∧ m.type = ty)) := by
  constructor
  · have := runConsole_getConsoleMessages evs initConsole (by intro p hp; cases hp)
    simpa [getConsoleMessages, initConsole, jsMapValues] using this
  · intro messages
    constructor
    · exact List.filter_sublist messages
    · intro m
      constructor
      · intro hm
        have := List.mem_filter.mp hm
        exact ⟨this.1, by simpa using this.2⟩
      · intro hm
        exact List.mem_filter.mpr ⟨hm.1, by simp [hm.2]⟩

/-- Claim C2 (amended): frames that parse are dispatched without any
exception — unrecognized ones are discarded and aggregation over the others
matches the handler semantics — but a frame that fails `JSON.parse` throws
the parse error out of the dispatch handler: frames before it are
aggregated, the loop stops there. -/
theorem console_dispatch_parse_behaviour (st : ConsoleState)
    (evs pre post : List ConsoleNotification) :
    consoleDispatchRun st (evs.map RawPayload.wellFormed) = (runConsole st evs, none) ∧
    consoleDispatchRun st
        (pre.map RawPayload.wellFormed ++ RawPayload.malformed :: post.map RawPayload.wellFormed)
      = (runConsole st pre, some "SyntaxError: Unexpected token in JSON") := by
  constructor
  · induction evs generalizing st with
    | nil => rfl
    | cons ev rest ih => exact ih (consoleStep st ev)
  · induction pre generalizing st with
    | nil => rfl
    | cons ev rest ih => exact ih (consoleStep st ev)

/-- Claim C2 counterexample: a malformed frame delivered between two
well-formed console notifications makes the `SyntaxError` escape the
dispatch handler; the notification before it is aggregated, the one after
it is not — refuting both the no-exception and the both-aggregated parts of
the claim. -/
theorem console_dispatch_counterexample :
    (consoleDispatchRun initConsole
      [RawPayload.wellFormed (ConsoleNotification.consoleAPICalled "log"
         [{ value := some "first", description := none }] (some 11)),
       RawPayload.malformed,
       RawPayload.wellFormed (ConsoleNotification.consoleAPICalled "log"
         [{ value := some "second", description := none }] (some 12))])
    = ({ now := 1,
         consoleMessages := [(0,
           { id := 0, type := "log", timestamp := 11, text := "first",
             source := "console-api", line := none, url := none,
             args := some [{ value := some "first", description := none }] })] },
       some "SyntaxError: Unexpected token in JSON") := by
  decide


/-! ## Network aggregation lemmas -/

theorem keys_ne_of_mapLookup_eq_none {a b : Type} [DecidableEq a]
    (m : List (a × b)) (k : a) (h : mapLookup m k = none) :
    ∀ p ∈ m, p.1 ≠ k := by
  induction m with
  | nil => intro p hp; cases hp
  | cons q rest ih =>
    obtain ⟨x, y⟩ := q
    intro p hp
    by_cases hx : x = k
    · simp [mapLookup, hx] at h
    · rcases List.mem_cons.mp hp with h1 | h2
      · rw [h1]; exact hx
      · have h' : mapLookup rest k = none := by simpa [mapLookup, hx] using h
        exact ih h' p h2

theorem map_setEntry_of_absent {a b : Type} [DecidableEq a]
    (m : List (a × b)) (k : a) (w : b) (h : ∀ p ∈ m, p.1 ≠ k) :
    m.map (setEntry k w) = m := by
  induction m with
  | nil => rfl
  | cons q rest ih =>
    obtain ⟨x, y⟩ := q
    rw [List.map_cons, setEntry_ne k w x y (h (x, y) (List.mem_cons_self _ _)),
      ih (fun p hp => h p (List.mem_cons_of_mem _ hp))]

theorem jsMapSet_append_self {a b : Type} [DecidableEq a]
    (m : List (a × b)) (k : a) (v w : b) (h : mapLookup m k = none) :
    jsMapSet (m ++ [(k, v)]) k w = m ++ [(k, w)] := by
  have hc : mapContains (m ++ [(k, v)]) k = true := by
    simp [mapContains, mapLookup_append_self m k v h]
  simp only [jsMapSet, hc, if_true]
  rw [List.map_append, map_setEntry_of_absent m k w (keys_ne_of_mapLookup_eq_none m k h)]
  simp [setEntry]

theorem mapLookup_jsMapSet_isSome {a b : Type} [DecidableEq a]
    (m : List (a × b)) (k' k : a) (v : b) (h : (mapLookup m k).isSome = true) :
    (mapLookup (jsMapSet m k' v) k).isSome = true := by
  rw [mapLookup_jsMapSet]
  by_cases hk : k' = k
  · simp [hk]
  · simpa [hk] using h

theorem networkStep_entry_isSome (st : NetworkState) (ev : NetworkEvent) (k : String)
    (h : (mapLookup st.requests k).isSome = true) :
    (mapLookup (networkStep st ev).requests k).isSome = true := by
  cases ev with
  | requestWillBeSent rid request ts ty =>
    exact mapLookup_jsMapSet_isSome _ _ _ _ h
  | responseReceived rid response =>
    exact mapLookup_jsMapSet_isSome _ _ _ _ h
  | loadingFinished rid len =>
    simp only [networkStep]
    by_cases hmem : rid ∈ st.networkRequests
    · simp only [if_pos hmem]
      cases hl : mapLookup st.requests rid with
      | some req => simpa using mapLookup_jsMapSet_isSome _ _ _ _ h
      | none => simpa using h
    · simpa [if_neg hmem] using h
  | otherMessage => simpa [networkStep] using h

theorem networkStep_networkRequests_mono (st : NetworkState) (ev : NetworkEvent) (k : String)
    (h : k ∈ st.networkRequests) : k ∈ (networkStep st ev).networkRequests := by
  cases ev with
  | requestWillBeSent rid request ts ty => exact h
  | responseReceived rid response =>
    simp only [networkStep]
    by_cases hmem : rid ∈ st.networkRequests
    · simpa [if_pos hmem] using h
    · simp only [if_neg hmem]
      exact List.mem_append.mpr (Or.inl h)
  | loadingFinished rid len =>
    simp only [networkStep]
    by_cases hmem : rid ∈ st.networkRequests
    · simp only [if_pos hmem]
      cases hl : mapLookup st.requests rid with
      | some req => simpa using h
      | none => simpa using h
    · simpa [if_neg hmem] using h
  | otherMessage => simpa [networkStep] using h

theorem runNetwork_persists (evs : List NetworkEvent) (st : NetworkState) (k : String)
    (h1 : (mapLookup st.requests k).isSome = true) (h2 : k ∈ st.networkRequests) :
    (mapLookup (runNetwork st evs).requests k).isSome = true ∧
      k ∈ (runNetwork st evs).networkRequests := by
  induction evs generalizing st with
  | nil => exact ⟨h1, h2⟩
  | cons ev rest ih =>
    exact ih (networkStep st ev) (networkStep_entry_isSome st ev k h1)
      (networkStep_networkRequests_mono st ev k h2)

/-- Claim C6 (amended): an assembly-map entity for key k is created by
whichever of the start/response notifications arrives first (both create
when absent), but the entity enters the retrieval snapshot only upon a
response notification: from the first response for k onward, an entity for
k is in the snapshot returned by `getNetworkRequests` for the lifetime of
the session. A key observed only via a start notification has an entity in
the assembly map but not in the retrieved table (see the counterexample). -/
theorem network_entity_creation_and_persistence (st : NetworkState) (k : String)
    (request : RequestInfo) (ts : Nat) (ty : String) (response : ResponseInfo)
    (evs : List NetworkEvent) :
    (mapLookup (networkStep st (NetworkEvent.requestWillBeSent k request ts ty)).requests k).isSome = true ∧
    (mapLookup (networkStep st (NetworkEvent.responseReceived k response)).requests k).isSome = true ∧
    ∃ r, mapLookup (runNetwork (networkStep st (NetworkEvent.responseReceived k response)) evs).requests k
           = some r ∧
         r ∈ getNetworkRequests (runNetwork (networkStep st (NetworkEvent.responseReceived k response)) evs) := by
  have hstart : (mapLookup (networkStep st (NetworkEvent.requestWillBeSent k request ts ty)).requests k).isSome = true := by
    simp only [networkStep]
    rw [mapLookup_jsMapSet]
    simp
  have hresp : (mapLookup (networkStep st (NetworkEvent.responseReceived k response)).requests k).isSome = true := by
    simp only [networkStep]
    rw [mapLookup_jsMapSet]
    simp
  have hmem : k ∈ (networkStep st (NetworkEvent.responseReceived k response)).networkRequests := by
    simp only [networkStep]
    by_cases hc : k ∈ st.networkRequests
    · simpa [if_pos hc] using hc
    · simp only [if_neg hc]
      exact List.mem_append.mpr (Or.inr (List.mem_singleton.mpr rfl))
  obtain ⟨hsome, hmem'⟩ :=
    runNetwork_persists evs (networkStep st (NetworkEvent.responseReceived k response)) k hresp hmem
  obtain ⟨r, hr⟩ := Option.isSome_iff_exists.mp hsome
  exact ⟨hstart, hresp, r, hr, List.mem_filterMap.mpr ⟨k, hmem', hr⟩⟩

/-- Claim C6 counterexample: a key observed only via a start notification
(`Network.requestWillBeSent`) has an entity in the assembly map, yet the
snapshot returned by `getNetworkRequests` is empty — the handler stores
into `this.networkRequests` only on `Network.responseReceived`. -/
theorem network_start_only_counterexample :
    (mapLookup (networkStep initNetwork
        (NetworkEvent.requestWillBeSent "r1"
          { url := "https://x", method := "GET", headers := [] } 5 "document")).requests
        "r1").isSome = true ∧
    getNetworkRequests (networkStep initNetwork
        (NetworkEvent.requestWillBeSent "r1"
          { url := "https://x", method := "GET", headers := [] } 5 "document")) = [] := by
  decide

/-- Claim C8 (amended): identity and request-side fields are protected only
against response notifications: `Network.responseReceived` on an existing
entity leaves id, url, method, type, timestamp and requestHeaders unchanged
(url and method are filled from the response only when the provisional
entity is created), while `Network.requestWillBeSent` overwrites url,
method, timestamp, type and requestHeaders unconditionally
(last-writer-wins) and never touches id, status or responseHeaders. -/
theorem network_field_update_discipline (st : NetworkState) (k : String) (r : NetworkRequest)
    (hr : mapLookup st.requests k = some r) :
    (∀ response : ResponseInfo,
      mapLookup (networkStep st (NetworkEvent.responseReceived k response)).requests k
        = some { r with status := some response.status,
                        responseHeaders := some response.headers,
                        size := match response.encodedDataLength with
                                | some n => some n
                                | none => r.size }) ∧
    (∀ (request : RequestInfo) (ts : Nat) (ty : String),
      mapLookup (networkStep st (NetworkEvent.requestWillBeSent k request ts ty)).requests k
        = some { r with url := some request.url, method := some request.method,
                        timestamp := some (ts * 1000), type := some ty,
                        requestHeaders := some request.headers }) := by
  constructor
  · intro response
    simp only [networkStep, hr]
    rw [mapLookup_jsMapSet]
    simp
  · intro request ts ty
    simp only [networkStep, hr]
    rw [mapLookup_jsMapSet]
    simp

/-- Concrete instantiation of `network_field_update_discipline`: a second
response for an entity whose url is `"https://a"` leaves the url in place
and overwrites status. -/
theorem network_field_update_discipline_witness :
    mapLookup (networkStep
        { now := 3, requests := [("r1",
            { id := some "r1", url := some "https://a", method := some "GET",
              status := some 200, type := none, size := none, timestamp := some 0,
              requestHeaders := none, responseHeaders := some [] })],
          networkRequests := ["r1"] }
        (NetworkEvent.responseReceived "r1"
          { url := some "https://elsewhere", status := 304, headers := [], encodedDataLength := some 99 })).requests
      "r1"
      = some { id := some "r1", url := some "https://a", method := some "GET",
               status := some 304, type := none, size := some 99, timestamp := some 0,
               requestHeaders := none, responseHeaders := some [] } := by
  exact ((network_field_update_discipline
    { now := 3, requests := [("r1",
        { id := some "r1", url := some "https://a", method := some "GET",
          status := some 200, type := none, size := none, timestamp := some 0,
          requestHeaders := none, responseHeaders := some [] })],
      networkRequests := ["r1"] }
    "r1"
    { id := some "r1", url := some "https://a", method := some "GET",
      status := some 200, type := none, size := none, timestamp := some 0,
      requestHeaders := none, responseHeaders := some [] }
    (by rfl)).1
    { url := some "https://elsewhere", status := 304, headers := [], encodedDataLength := some 99 })

/-- Claim C8 counterexample: an entity whose url is already known and
non-empty (`"https://a"`, set by a response notification) has its url
overwritten to `"https://b"` by a later `Network.requestWillBeSent` for the
same key — the handler assigns `existing.url = request.url`
unconditionally. -/
theorem network_url_overwrite_counterexample :
    mapLookup (networkStep initNetwork
        (NetworkEvent.responseReceived "r1"
          { url := some "https://a", status := 200, headers := [], encodedDataLength := none })).requests
        "r1"
      = some { id := some "r1", url := some "https://a", method := some "GET",
               status := some 200, type := none, size := none, timestamp := some 0,
               requestHeaders := none, responseHeaders := some [] } ∧
    mapLookup (networkStep (networkStep initNetwork
        (NetworkEvent.responseReceived "r1"
          { url := some "https://a", status := 200, headers := [], encodedDataLength := none }))
        (NetworkEvent.requestWillBeSent "r1"
          { url := "https://b", method := "POST", headers := [] } 7 "xhr")).requests
        "r1"
      = some { id := some "r1", url := some "https://b", method := some "POST",
               status := some 200, type := some "xhr", size := none, timestamp := some 7000,
               requestHeaders := some [], responseHeaders := some [] } := by
  decide

theorem jsMapSet_length_of_contains {a b : Type} [DecidableEq a]
    (m : List (a × b)) (k : a) (v : b) (h : (mapLookup m k).isSome = true) :
    (jsMapSet m k v).length = m.length := by
  rw [jsMapSet_length]
  simp [mapContains, h]

theorem networkStep_start_absent (st : NetworkState) (k : String)
    (request : RequestInfo) (ts : Nat) (ty : String)
    (habs : mapLookup st.requests k = none) :
    networkStep st (NetworkEvent.requestWillBeSent k request ts ty)
      = { now := st.now + 1,
          requests := st.requests ++ [(k,
            { id := some k, url := some request.url, method := some request.method,
              status := none, type := some ty, size := none,
              timestamp := some (ts * 1000), requestHeaders := some request.headers,
              responseHeaders := none })],
          networkRequests := st.networkRequests } := by
  simp only [networkStep, habs]
  rw [jsMapSet_of_absent _ _ _ habs]

theorem networkStep_response_absent (st : NetworkState) (k : String) (response : ResponseInfo)
    (habs : mapLookup st.requests k = none) (hpub : k ∉ st.networkRequests) :
    networkStep st (NetworkEvent.responseReceived k response)
      = { now := st.now + 1,
          requests := st.requests ++ [(k,
            { id := some k, url := some ((response.url).getD ""), method := some "GET",
              status := some response.status, type := none,
              size := Option.elim response.encodedDataLength none some,
              timestamp := some st.now, requestHeaders := none,
              responseHeaders := some response.headers })],
          networkRequests := st.networkRequests ++ [k] } := by
  obtain ⟨rurl, rstatus, rheaders, redl⟩ := response
  simp only [networkStep, habs]
  rw [jsMapSet_of_absent _ _ _ habs, if_neg hpub]
  cases redl <;> rfl

theorem networkStep_start_existing (m : List (String × NetworkRequest)) (nr : List String)
    (n : Nat) (k : String) (e : NetworkRequest) (request : RequestInfo) (ts : Nat) (ty : String)
    (habs : mapLookup m k = none) :
    networkStep { now := n, requests := m ++ [(k, e)], networkRequests := nr }
        (NetworkEvent.requestWillBeSent k request ts ty)
      = { now := n + 1,
          requests := m ++ [(k,
            { e with url := some request.url, method := some request.method,
                     timestamp := some (ts * 1000), type := some ty,
                     requestHeaders := some request.headers })],
          networkRequests := nr } := by
  simp only [networkStep]
  rw [mapLookup_append_self _ _ _ habs, jsMapSet_append_self _ _ _ _ habs]

theorem networkStep_response_existing (m : List (String × NetworkRequest)) (nr : List String)
    (n : Nat) (k : String) (e : NetworkRequest) (response : ResponseInfo)
    (habs : mapLookup m k = none) :
    networkStep { now := n, requests := m ++ [(k, e)], networkRequests := nr }
        (NetworkEvent.responseReceived k response)
      = { now := n + 1,
          requests := m ++ [(k,
            { e with status := some response.status,
                     responseHeaders := some response.headers,
                     size := Option.elim response.encodedDataLength e.size some })],
          networkRequests := if k ∈ nr then nr else nr ++ [k] } := by
  obtain ⟨rurl, rstatus, rheaders, redl⟩ := response
  simp only [networkStep]
  rw [mapLookup_append_self _ _ _ habs, jsMapSet_append_self _ _ _ _ habs]
  cases redl <;> rfl

theorem networkStep_finish_existing (m : List (String × NetworkRequest)) (nr : List String)
    (n : Nat) (k : String) (e : NetworkRequest) (sz : Nat)
    (habs : mapLookup m k = none) (hmem : k ∈ nr) :
    networkStep { now := n, requests := m ++ [(k, e)], networkRequests := nr }
        (NetworkEvent.loadingFinished k sz)
      = { now := n + 1, requests := m ++ [(k, { e with size := some sz })],
          networkRequests := nr } := by
  simp only [networkStep]
  rw [if_pos hmem, mapLookup_append_self _ _ _ habs]
  show ({ now := n + 1,
          requests := jsMapSet (m ++ [(k, e)]) k { e with size := some sz },
          networkRequests := nr } : NetworkState) = _
  rw [jsMapSet_append_self _ _ _ _ habs]

/-- Claim C5: for a fresh key k, delivering response(k), start(k), finish(k)
produces exactly the same aggregator state — hence the same final entity and
the same retrieval snapshot — as the canonical order start(k), response(k),
finish(k), for identical payloads. -/
theorem network_order_convergence (st : NetworkState) (k : String)
    (request : RequestInfo) (ts : Nat) (ty : String) (response : ResponseInfo) (sz : Nat)
    (habs : mapLookup st.requests k = none) (hpub : k ∉ st.networkRequests) :
    runNetwork st [NetworkEvent.responseReceived k response,
                   NetworkEvent.requestWillBeSent k request ts ty,
                   NetworkEvent.loadingFinished k sz]
      = runNetwork st [NetworkEvent.requestWillBeSent k request ts ty,
                       NetworkEvent.responseReceived k response,
                       NetworkEvent.loadingFinished k sz] := by
  have hmem1 : k ∈ st.networkRequests ++ [k] :=
    List.mem_append.mpr (Or.inr (List.mem_singleton.mpr rfl))
  simp only [runNetwork, List.foldl]
  rw [networkStep_response_absent st k response habs hpub,
      networkStep_start_existing st.requests (st.networkRequests ++ [k]) (st.now + 1) k _
        request ts ty habs,
      networkStep_finish_existing st.requests (st.networkRequests ++ [k]) (st.now + 1 + 1) k _
        sz habs hmem1,
      networkStep_start_absent st k request ts ty habs,
      networkStep_response_existing st.requests st.networkRequests (st.now + 1) k _
        response habs,
      if_neg hpub,
      networkStep_finish_existing st.requests (st.networkRequests ++ [k]) (st.now + 1 + 1) k _
        sz habs hmem1]

/-- Concrete instantiation of `network_order_convergence` at the scenario of
the spec: response(r1, 200, size undefined), start(r1, https://x, GET),
finish(r1, 4567), against the canonical order. -/
theorem network_order_convergence_witness :
    runNetwork initNetwork
        [NetworkEvent.responseReceived "r1"
           { url := none, status := 200, headers := [], encodedDataLength := none },
         NetworkEvent.requestWillBeSent "r1"
           { url := "https://x", method := "GET", headers := [] } 5 "document",
         NetworkEvent.loadingFinished "r1" 4567]
      = runNetwork initNetwork
        [NetworkEvent.requestWillBeSent "r1"
           { url := "https://x", method := "GET", headers := [] } 5 "document",
         NetworkEvent.responseReceived "r1"
           { url := none, status := 200, headers := [], encodedDataLength := none },
         NetworkEvent.loadingFinished "r1" 4567] :=
  network_order_convergence initNetwork "r1"
    { url := "https://x", method := "GET", headers := [] } 5 "document"
    { url := none, status := 200, headers := [], encodedDataLength := none } 4567
    (by rfl) (by simp [initNetwork])

theorem networkStep_finish_networkRequests (st : NetworkState) (rid : String) (len : Nat) :
    (networkStep st (NetworkEvent.loadingFinished rid len)).networkRequests
      = st.networkRequests := by
  simp only [networkStep]
  by_cases hm : rid ∈ st.networkRequests
  · simp only [if_pos hm]
    cases mapLookup st.requests rid <;> rfl
  · simp only [if_neg hm]

theorem networkStep_finish_requests_length (st : NetworkState) (rid : String) (len : Nat) :
    (networkStep st (NetworkEvent.loadingFinished rid len)).requests.length
      = st.requests.length := by
  simp only [networkStep]
  by_cases hm : rid ∈ st.networkRequests
  · simp only [if_pos hm]
    cases hl : mapLookup st.requests rid with
    | some req => exact jsMapSet_length_of_contains _ _ _ (by rw [hl]; rfl)
    | none => rfl
  · simp only [if_neg hm]

theorem networkStep_start_requests_length_of_some (st : NetworkState) (rid : String)
    (request : RequestInfo) (ts : Nat) (ty : String)
    (h : (mapLookup st.requests rid).isSome = true) :
    (networkStep st (NetworkEvent.requestWillBeSent rid request ts ty)).requests.length
      = st.requests.length := by
  simp only [networkStep]
  exact jsMapSet_length_of_contains _ _ _ h

theorem networkStep_response_requests_length_of_some (st : NetworkState) (rid : String)
    (response : ResponseInfo) (h : (mapLookup st.requests rid).isSome = true) :
    (networkStep st (NetworkEvent.responseReceived rid response)).requests.length
      = st.requests.length := by
  simp only [networkStep]
  exact jsMapSet_length_of_contains _ _ _ h

theorem networkStep_self_key_isSome_start (st : NetworkState) (rid : String)
    (request : RequestInfo) (ts : Nat) (ty : String) :
    (mapLookup (networkStep st (NetworkEvent.requestWillBeSent rid request ts ty)).requests
        rid).isSome = true := by
  simp only [networkStep]
  rw [mapLookup_jsMapSet]
  simp

theorem networkStep_self_key_isSome_response (st : NetworkState) (rid : String)
    (response : ResponseInfo) :
    (mapLookup (networkStep st (NetworkEvent.responseReceived rid response)).requests
        rid).isSome = true := by
  simp only [networkStep]
  rw [mapLookup_jsMapSet]
  simp

theorem networkStep_response_networkRequests_mem (st : NetworkState) (rid : String)
    (response : ResponseInfo) :
    rid ∈ (networkStep st (NetworkEvent.responseReceived rid response)).networkRequests := by
  simp only [networkStep]
  by_cases hc : rid ∈ st.networkRequests
  · simpa [if_pos hc] using hc
  · simp only [if_neg hc]
    exact List.mem_append.mpr (Or.inr (List.mem_singleton.mpr rfl))

theorem networkStep_response_networkRequests_of_mem (st : NetworkState) (rid : String)
    (response : ResponseInfo) (h : rid ∈ st.networkRequests) :
    (networkStep st (NetworkEvent.responseReceived rid response)).networkRequests
      = st.networkRequests := by
  simp only [networkStep, if_pos h]

theorem networkStep_finish_requests_of_some (st : NetworkState) (k : String) (len : Nat)
    (v : NetworkRequest) (hmem : k ∈ st.networkRequests)
    (hv : mapLookup st.requests k = some v) :
    (networkStep st (NetworkEvent.loadingFinished k len)).requests
      = jsMapSet st.requests k { v with size := some len } := by
  simp only [networkStep, if_pos hmem, hv]

theorem networkStep_twice_counts (st : NetworkState) (ev : NetworkEvent) :
    (networkStep (networkStep st ev) ev).requests.length
        = (networkStep st ev).requests.length ∧
    (networkStep (networkStep st ev) ev).networkRequests.length
        = (networkStep st ev).networkRequests.length := by
  cases ev with
  | requestWillBeSent rid request ts ty =>
    exact ⟨networkStep_start_requests_length_of_some _ _ _ _ _
      (networkStep_self_key_isSome_start st rid request ts ty), rfl⟩
  | responseReceived rid response =>
    refine ⟨networkStep_response_requests_length_of_some _ _ _
      (networkStep_self_key_isSome_response st rid response), ?_⟩
    rw [networkStep_response_networkRequests_of_mem _ _ _
      (networkStep_response_networkRequests_mem st rid response)]
  | loadingFinished rid len =>
    exact ⟨networkStep_finish_requests_length _ _ _,
      by rw [networkStep_finish_networkRequests]⟩
  | otherMessage => exact ⟨rfl, rfl⟩

/-- Claim C7: applying finish(k, 500) twice in sequence leaves the entity's
size at exactly 500 (last-writer-wins, not accumulated) and creates no
second entity for key k — the published key list and the assembly-map size
are unchanged; more generally, re-applying any already-seen event leaves
the number of entities in both stores unchanged. -/
theorem network_finish_idempotent (st : NetworkState) (k : String) (r : NetworkRequest)
    (st₀ : NetworkState) (ev : NetworkEvent)
    (hmem : k ∈ st.networkRequests) (hr : mapLookup st.requests k = some r) :
    mapLookup (networkStep (networkStep st (NetworkEvent.loadingFinished k 500))
        (NetworkEvent.loadingFinished k 500)).requests k = some { r with size := some 500 } ∧
    (networkStep (networkStep st (NetworkEvent.loadingFinished k 500))
        (NetworkEvent.loadingFinished k 500)).networkRequests = st.networkRequests ∧
    (networkStep (networkStep st (NetworkEvent.loadingFinished k 500))
        (NetworkEvent.loadingFinished k 500)).requests.length = st.requests.length ∧
    ((networkStep (networkStep st₀ ev) ev).requests.length
        = (networkStep st₀ ev).requests.length ∧
     (networkStep (networkStep st₀ ev) ev).networkRequests.length
        = (networkStep st₀ ev).networkRequests.length) := by
  have ha : (networkStep st (NetworkEvent.loadingFinished k 500)).requests
      = jsMapSet st.requests k { r with size := some 500 } :=
    networkStep_finish_requests_of_some st k 500 r hmem hr
  have hb : (networkStep st (NetworkEvent.loadingFinished k 500)).networkRequests
      = st.networkRequests := networkStep_finish_networkRequests st k 500
  have hl1 : mapLookup (networkStep st (NetworkEvent.loadingFinished k 500)).requests k
      = some { r with size := some 500 } := by
    rw [ha, mapLookup_jsMapSet]
    simp
  have hmem1 : k ∈ (networkStep st (NetworkEvent.loadingFinished k 500)).networkRequests := by
    rw [hb]
    exact hmem
  have hc : (networkStep (networkStep st (NetworkEvent.loadingFinished k 500))
      (NetworkEvent.loadingFinished k 500)).requests
      = jsMapSet (networkStep st (NetworkEvent.loadingFinished k 500)).requests k
          { r with size := some 500 } :=
    networkStep_finish_requests_of_some _ k 500 { r with size := some 500 } hmem1 hl1
  refine ⟨?_, ?_, ?_, networkStep_twice_counts st₀ ev⟩
  · rw [hc, mapLookup_jsMapSet]
    simp
  · rw [networkStep_finish_networkRequests, networkStep_finish_networkRequests]
  · rw [networkStep_finish_requests_length, networkStep_finish_requests_length]

/-- Concrete instantiation of `network_finish_idempotent`: an entity with
size undefined keeps size exactly 500 after two finish(500) events. -/
theorem network_finish_idempotent_witness :
    mapLookup (networkStep (networkStep
        { now := 1,
          requests := [("r1",
            { id := some "r1", url := some "", method := some "GET",
              status := some 200, type := none, size := none, timestamp := some 0,
              requestHeaders := none, responseHeaders := some [] })],
          networkRequests := ["r1"] }
        (NetworkEvent.loadingFinished "r1" 500))
        (NetworkEvent.loadingFinished "r1" 500)).requests "r1"
      = some { id := some "r1", url := some "", method := some "GET",
               status := some 200, type := none, size := some 500, timestamp := some 0,
               requestHeaders := none, responseHeaders := some [] } :=
  (network_finish_idempotent
    { now := 1,
      requests := [("r1",
        { id := some "r1", url := some "", method := some "GET",
          status := some 200, type := none, size := none, timestamp := some 0,
          requestHeaders := none, responseHeaders := some [] })],
      networkRequests := ["r1"] }
    "r1"
    { id := some "r1", url := some "", method := some "GET",
      status := some 200, type := none, size := none, timestamp := some 0,
      requestHeaders := none, responseHeaders := some [] }
    initNetwork NetworkEvent.otherMessage
    (by decide) (by rfl)).1

/-! ## Command correlation lemmas -/

theorem issueCommands_pending (methods : List String) (st : CDPContextState) :
    (issueCommands st methods).pending = st.pending ++ pendingOf st.messageId methods := by
  induction methods generalizing st with
  | nil => simp [issueCommands, pendingOf]
  | cons meth rest ih =>
    show (issueCommands (sendCommand st meth).1 rest).pending = _
    rw [ih]
    simp [sendCommand, pendingOf]

theorem pendingOf_getElem? (methods : List String) (n j : Nat) :
    (pendingOf n methods)[j]? = (methods[j]?).map
      (fun meth => { id := n + j, method := meth, listenerOn := true, timerOn := true,
                     outcome := none }) := by
  induction methods generalizing n j with
  | nil => simp [pendingOf]
  | cons meth rest ih =>
    cases j with
    | zero => simp [pendingOf]
    | succ j' =>
      have h1 : (pendingOf n (meth :: rest))[j' + 1]? = (pendingOf (n + 1) rest)[j']? := by
        simp [pendingOf]
      rw [h1, ih (n + 1) j']
      have h2 : ((meth :: rest))[j' + 1]? = rest[j']? := by simp
      rw [h2]
      cases rest[j']? with
      | none => rfl
      | some meth' =>
        have : n + 1 + j' = n + (j' + 1) := by omega
        simp [this]

theorem dispatchEvent_pending_getElem? (st : CDPContextState) (ev : CallEvent) (j : Nat) :
    (dispatchEvent st ev).pending[j]? = (st.pending[j]?).map (fun c => stepCall c ev) := by
  simp [dispatchEvent]

theorem foldl_dispatchEvent_getElem? (evs : List CallEvent) (st : CDPContextState) (j : Nat) :
    (evs.foldl dispatchEvent st).pending[j]?
      = (st.pending[j]?).map (fun c => evs.foldl stepCall c) := by
  induction evs generalizing st with
  | nil => cases h : st.pending[j]? <;> simp [h]
  | cons ev rest ih =>
    show (rest.foldl dispatchEvent (dispatchEvent st ev)).pending[j]? = _
    rw [ih, dispatchEvent_pending_getElem?]
    cases h : st.pending[j]? <;> simp [h]

theorem stepCall_message_ne (c : PendingCall) (m : CDPMessage) (h : m.id ≠ some c.id) :
    stepCall c (CallEvent.message m) = c := by
  simp [stepCall, h]

theorem stepCall_message_listenerOff (c : PendingCall) (m : CDPMessage)
    (h : c.listenerOn = false) :
    stepCall c (CallEvent.message m) = c := by
  simp [stepCall, h]

theorem foldl_stepCall_no_match (msgs : List CDPMessage) (c : PendingCall)
    (h : ∀ m ∈ msgs, m.id ≠ some c.id) :
    (msgs.map CallEvent.message).foldl stepCall c = c := by
  induction msgs with
  | nil => rfl
  | cons m rest ih =>
    show (rest.map CallEvent.message).foldl stepCall (stepCall c (CallEvent.message m)) = c
    rw [stepCall_message_ne c m (h m (List.mem_cons_self _ _))]
    exact ih (fun m' hm' => h m' (List.mem_cons_of_mem _ hm'))

theorem foldl_stepCall_listenerOff (msgs : List CDPMessage) (c : PendingCall)
    (h : c.listenerOn = false) :
    (msgs.map CallEvent.message).foldl stepCall c = c := by
  induction msgs with
  | nil => rfl
  | cons m rest ih =>
    show (rest.map CallEvent.message).foldl stepCall (stepCall c (CallEvent.message m)) = c
    rw [stepCall_message_listenerOff c m h]
    exact ih

theorem stepCall_resolves (c : PendingCall) (m : CDPMessage)
    (hl : c.listenerOn = true) (ho : c.outcome = none) (hm : m.id = some c.id) :
    stepCall c (CallEvent.message m)
      = { c with listenerOn := false, timerOn := false,
                 outcome := some (outcomeOfMessage m) } := by
  simp [stepCall, hl, hm, settle, ho]

theorem stepCall_settled (c : PendingCall) (ev : CallEvent) (h : c.outcome ≠ none) :
    (stepCall c ev).outcome = c.outcome := by
  obtain ⟨o, ho⟩ := Option.ne_none_iff_exists'.mp h
  cases ev with
  | message m =>
    simp only [stepCall]
    split
    · simp [settle, ho]
    · rfl
  | timeoutFire i =>
    simp only [stepCall]
    split
    · simp [settle, ho]
    · rfl
  | channelClose => rfl

/-- Claim C1: for any batch of concurrently outstanding `sendCommand` calls
on one session, each call resolves with exactly the outcome carried by the
inbound message whose id equals that call's assigned id (the j-th issued
command is assigned id 1+j): whatever non-matching messages arrive before
it and whatever messages arrive after it, in any order, the call settles
once, with that message's result or error. -/
theorem sendCommand_resolves_by_id (methods : List String)
    (l1 l2 : List CDPMessage) (m : CDPMessage) (j : Nat) (meth : String)
    (hmeth : methods[j]? = some meth)
    (hmatch : m.id = some (1 + j))
    (hl1 : ∀ m' ∈ l1, m'.id ≠ some (1 + j)) :
    (((l1 ++ m :: l2).map CallEvent.message).foldl dispatchEvent
        (issueCommands initContext methods)).pending[j]?
      = some { id := 1 + j, method := meth, listenerOn := false, timerOn := false,
               outcome := some (outcomeOfMessage m) } := by
  rw [foldl_dispatchEvent_getElem?, issueCommands_pending]
  have hp : (initContext.pending ++ pendingOf initContext.messageId methods)[j]?
      = some { id := 1 + j, method := meth, listenerOn := true, timerOn := true,
               outcome := none } := by
    show (pendingOf 1 methods)[j]? = _
    rw [pendingOf_getElem?, hmeth]
    rfl
  rw [hp]
  show some (((l1 ++ m :: l2).map CallEvent.message).foldl stepCall
      { id := 1 + j, method := meth, listenerOn := true, timerOn := true, outcome := none }) = _
  rw [List.map_append, List.map_cons, List.foldl_append,
      foldl_stepCall_no_match l1 _ hl1, List.foldl_cons,
      stepCall_resolves _ m rfl rfl hmatch]
  exact congrArg some (foldl_stepCall_listenerOff l2 _ rfl)

/-- Concrete instantiation of `sendCommand_resolves_by_id`: three commands
A, B, C issued concurrently (ids 1, 2, 3); responses arrive in the order
3, 2, 1; the second command still resolves with the payload of the message
with id 2. -/
theorem sendCommand_resolves_by_id_witness :
    ((([{ id := some 3, result := some "c", error := none },
        { id := some 2, result := some "b", error := none },
        { id := some 1, result := some "a", error := none }] : List CDPMessage).map
        CallEvent.message).foldl dispatchEvent
        (issueCommands initContext ["A", "B", "C"])).pending[1]?
      = some { id := 2, method := "B", listenerOn := false, timerOn := false,
               outcome := some (CallOutcome.result (some "b")) } :=
  sendCommand_resolves_by_id ["A", "B", "C"]
    [{ id := some 3, result := some "c", error := none }]
    [{ id := some 1, result := some "a", error := none }]
    { id := some 2, result := some "b", error := none } 1 "B"
    (by rfl) (by rfl) (by decide)

/-- Claim C3: a command whose matching response does not arrive within the
timeout window fails exactly once with `Command timeout`: after any
non-matching traffic, the timer firing settles the call, unregisters the
listener and disarms the timer, and any messages after that — including a
late matching response — leave the outcome untouched; in general no event
can change an already-settled outcome. -/
theorem command_timeout_exactly_once (idv : Nat) (method : String)
    (pre post : List CDPMessage)
    (hpre : ∀ m ∈ pre, m.id ≠ some idv) :
    ((pre.map CallEvent.message ++ CallEvent.timeoutFire idv :: post.map CallEvent.message).foldl
        stepCall
        { id := idv, method := method, listenerOn := true, timerOn := true, outcome := none })
      = { id := idv, method := method, listenerOn := false, timerOn := false,
          outcome := some (CallOutcome.commandTimeout method) } ∧
    (∀ (c : PendingCall) (ev : CallEvent), c.outcome ≠ none →
      (stepCall c ev).outcome = c.outcome) := by
  constructor
  · rw [List.foldl_append, foldl_stepCall_no_match pre _ hpre, List.foldl_cons,
        show stepCall { id := idv, method := method, listenerOn := true, timerOn := true,
                        outcome := none } (CallEvent.timeoutFire idv)
            = { id := idv, method := method, listenerOn := false, timerOn := false,
                outcome := some (CallOutcome.commandTimeout method) } from by
          simp [stepCall, settle]]
    exact foldl_stepCall_listenerOff post _ rfl
  · exact fun c ev h => stepCall_settled c ev h

/-- Concrete instantiation of `command_timeout_exactly_once`: a call with
id 4 sees an unrelated response, then its timer fires, then a late matching
response; it ends settled with `Command timeout` exactly once. -/
theorem command_timeout_exactly_once_witness :
    (([CallEvent.message { id := some 9, result := some "x", error := none },
       CallEvent.timeoutFire 4,
       CallEvent.message { id := some 4, result := some "late", error := none }]).foldl stepCall
       { id := 4, method := "DOM.enable", listenerOn := true, timerOn := true, outcome := none })
      = { id := 4, method := "DOM.enable", listenerOn := false, timerOn := false,
          outcome := some (CallOutcome.commandTimeout "DOM.enable") } :=
  (command_timeout_exactly_once 4 "DOM.enable"
    [{ id := some 9, result := some "x", error := none }]
    [{ id := some 4, result := some "late", error := none }]
    (by decide)).1

/-- Claim C4 (amended): channel closure does not fail pending commands at
closure time — no close handler exists anywhere in `src/context.ts`, so
closing the transport leaves the whole correlation state untouched and a
pending command stays pending; it fails only when its own 30-second timer
fires, with `Command timeout`. -/
theorem channel_close_leaves_pending (st : CDPContextState) (idv : Nat) (method : String) :
    dispatchEvent st CallEvent.channelClose = st ∧
    (stepCall { id := idv, method := method, listenerOn := true, timerOn := true,
                outcome := none } CallEvent.channelClose).outcome = none ∧
    stepCall (stepCall { id := idv, method := method, listenerOn := true,
                         timerOn := true, outcome := none } CallEvent.channelClose)
        (CallEvent.timeoutFire idv)
      = { id := idv, method := method, listenerOn := false, timerOn := false,
          outcome := some (CallOutcome.commandTimeout method) } := by
  refine ⟨?_, rfl, ?_⟩
  · simp [dispatchEvent, stepCall]
  · simp [stepCall, settle]

/-- Claim C4 counterexample: with one command pending, closing the channel
leaves its promise unsettled (outcome still `none`) and the context state
bit-for-bit unchanged — the pending command is not rejected at closure
time, contradicting the claim. -/
theorem channel_close_counterexample :
    (stepCall { id := 1, method := "Runtime.enable", listenerOn := true, timerOn := true,
                outcome := none } CallEvent.channelClose).outcome = none ∧
    dispatchEvent (issueCommands initContext ["Runtime.enable"]) CallEvent.channelClose
      = issueCommands initContext ["Runtime.enable"] := by
  decide

end Cdp
